import Mathlib

/-!
Verification of the speech-relay repository (browser capture client,
Socket.IO relay server, Cloud Speech adapter) against its specification.

The development shallowly embeds the JavaScript sources:

* `src/client/cloud-speech-api-client.js` : sample conversion
  (`convertFloat32ToInt16`), data-URL file processing (`processFileField`),
  and the client-side socket listeners.
* `src/server/cloud-speech-api-server.js` : the `CloudSpeechApi` module —
  option records and their merge logic (`startRecording`, `recogniseFile`),
  the streaming write path (`recognise`), session teardown
  (`stopRecording`), and the stream `data` handler.
* `src/server/app.js` : the per-connection relay (recording flag, audio
  forwarding, stop/disconnect handling, emitted socket events).

JavaScript objects are modelled as association lists of string keys and
`JsVal` values; mutation of the module-level option records is modelled by
explicit state passing.  Where JavaScript evaluation can throw
(`Object.keys(null)`, property access on `undefined`), the embedding
returns `Except`/an explicit thrown outcome.
-/

namespace SpeechSample

/-! ## JavaScript object model -/

/-- A JavaScript value as used by the option records of this program:
numbers, strings, booleans, `null`, and plain objects (association lists
of own enumerable properties, in insertion order). -/
inductive JsVal where
  | num (n : Int)
  | str (s : String)
  | bool (b : Bool)
  | null
  | obj (fields : List (String × JsVal))

/-- A JavaScript object: own enumerable string-keyed properties in
insertion order.  JavaScript objects never contain a key twice. -/
abbrev JsObj := List (String × JsVal)

/-- Property read `o[k]`: the first binding of `k`, if any. -/
def getProp : JsObj → String → Option JsVal
  | [], _ => none
  | (k', v) :: t, k => if k' = k then some v else getProp t k

/-- The JavaScript `o.hasOwnProperty(k)` test for a (non-boxed) object. -/
def hasProp (o : JsObj) (k : String) : Bool :=
  o.any fun p => p.1 == k

/-- Pointwise update used by property assignment to an existing key. -/
def updFn (k : String) (v : JsVal) : String × JsVal → String × JsVal :=
  fun p => if p.1 = k then (k, v) else p

/-- Property assignment `o[k] = v`: overwrite the binding when the key is
present (keeping its position, as JavaScript does), append it otherwise. -/
def setProp (o : JsObj) (k : String) (v : JsVal) : JsObj :=
  if hasProp o k then o.map (updFn k v) else o ++ [(k, v)]

/-- `Object.keys o`, in insertion order. -/
def propKeys (o : JsObj) : List String :=
  o.map Prod.fst

/-! ## Speech adapter: option records and merges
(`src/server/cloud-speech-api-server.js`) -/

/-- The default `config` sub-record of `streamingOptions`
(cloud-speech-api-server.js lines 43-49). -/
def speechConfigDefaults : JsObj :=
  [("encoding", JsVal.str "LINEAR16"),
   ("sampleRate", JsVal.num 41000),
   ("languageCode", JsVal.str "en-US"),
   ("profanityFilter", JsVal.bool true),
   ("speechContext", JsVal.null)]

/-- The default `streamingOptions` record (cloud-speech-api-server.js
lines 42-52). -/
def streamingDefaults : JsObj :=
  [("config", JsVal.obj speechConfigDefaults),
   ("interimResults", JsVal.bool true),
   ("singleUtterance", JsVal.bool false)]

/-- The default `nonStreamingOptions` record (cloud-speech-api-server.js
lines 53-60).  The `speechContext` line is commented out in the source. -/
def nonStreamingDefaults : JsObj :=
  [("encoding", JsVal.str "LINEAR16"),
   ("sampleRate", JsVal.num 16000),
   ("languageCode", JsVal.str "en-US"),
   ("continuous", JsVal.bool false),
   ("enableEndpointerEvents", JsVal.bool false)]

/-- The inner loop of `startRecording`'s option merge
(cloud-speech-api-server.js lines 164-170): for each key `ik` of the
client-supplied sub-object, re-read `streamingOptions[k]` and, when it is
an object owning `ik`, assign `streamingOptions[k][ik]`.
`hasOwnProperty` on a boxed number or boolean finds nothing; on `null` or
`undefined` it throws a TypeError, modelled as `Except.error`. -/
def innerMergeAt (k : String) : JsObj → JsObj → Except String JsObj
  | so, [] => Except.ok so
  | so, (ik, iv) :: rest =>
    match getProp so k with
    | some (JsVal.obj d) =>
      if hasProp d ik then
        innerMergeAt k (setProp so k (JsVal.obj (setProp d ik iv))) rest
      else
        innerMergeAt k so rest
    | some JsVal.null => Except.error "TypeError: hasOwnProperty of null"
    | some (JsVal.num _) => innerMergeAt k so rest
    | some (JsVal.str _) => innerMergeAt k so rest
    | some (JsVal.bool _) => innerMergeAt k so rest
    | none => Except.error "TypeError: hasOwnProperty of undefined"

/-- The option merge of `startRecording` (cloud-speech-api-server.js lines
159-178), iterating `Object.keys(options)`.  A key is considered only when
the live `streamingOptions` record owns it; an object-valued entry is
merged one level deep by `innerMergeAt`; `typeof null` is `'object'` in
JavaScript, so a `null` entry reaches `Object.keys(null)` and throws;
any other value is assigned directly.  Keys of a JavaScript object are
unique, so iterating its key-value pairs is `Object.keys` iteration. -/
def mergeStreamingOptions : JsObj → JsObj → Except String JsObj
  | so, [] => Except.ok so
  | so, (k, v) :: rest =>
    if hasProp so k then
      match v with
      | JsVal.null => Except.error "TypeError: Object.keys of null"
      | JsVal.obj innerO =>
        match innerMergeAt k so innerO with
        | Except.ok so2 => mergeStreamingOptions so2 rest
        | Except.error e => Except.error e
      | JsVal.num n => mergeStreamingOptions (setProp so k (JsVal.num n)) rest
      | JsVal.str s => mergeStreamingOptions (setProp so k (JsVal.str s)) rest
      | JsVal.bool b => mergeStreamingOptions (setProp so k (JsVal.bool b)) rest
    else mergeStreamingOptions so rest

/-- The option merge of `recogniseFile` (cloud-speech-api-server.js lines
102-113): `initialRequest` aliases `nonStreamingOptions`; the loop walks
the snapshot `Object.keys(initialRequest)` and overwrites each key the
caller's `parameters` object owns.  With no `parameters`, nothing runs. -/
def recogniseFileMerge (defaults : JsObj) : Option JsObj → JsObj
  | none => defaults
  | some p =>
    (propKeys defaults).foldl
      (fun acc k =>
        match getProp p k with
        | some v => setProp acc k v
        | none => acc)
      defaults

/-- Relation between an option record and the result of merging into it:
the key set is unchanged, and every object-valued property of the result
descends from an object-valued property of the original with the same
inner key set.  Both merge loops above only ever assign through
`hasOwnProperty` guards, so they refine this relation. -/
def KeysMono (a r : JsObj) : Prop :=
  propKeys r = propKeys a ∧
  ∀ k c, getProp r k = some (JsVal.obj c) →
    ∃ c₀, getProp a k = some (JsVal.obj c₀) ∧ propKeys c = propKeys c₀

/-! ## Speech adapter: module state -/

/-- Mutable state of one `CloudSpeechApi()` module instance: the two
option records (mutated in place by the merges above), the
`initialRequest` flag, and the current `speechClient` handle.
`endCount` is a ghost counter of `speechClient.end()` invocations, used to
state closure properties. -/
structure ApiModule where
  streamingOpts : JsObj
  nonStreamingOpts : JsObj
  initialRequest : Bool
  speechClient : Option Unit
  endCount : Nat

/-- A fresh `CloudSpeechApi()` instance (cloud-speech-api-server.js lines
40-60): no client, `initialRequest` true, default option records. -/
def freshModule : ApiModule :=
  { streamingOpts := streamingDefaults
    nonStreamingOpts := nonStreamingDefaults
    initialRequest := true
    speechClient := none
    endCount := 0 }

/-- State effect of `startRecording(options, callback)`
(cloud-speech-api-server.js lines 156-184): merge the client options into
the module-level `streamingOptions` record, open a new streaming client,
and reset `initialRequest` to true. -/
def startRecording (m : ApiModule) : Option JsObj → Except String ApiModule
  | none =>
    Except.ok { m with speechClient := some (), initialRequest := true }
  | some o =>
    (mergeStreamingOptions m.streamingOpts o).map fun so =>
      { m with streamingOpts := so, speechClient := some (), initialRequest := true }

/-- State effect of `recogniseFile(audioData, parameters, callback)` on the
option record (cloud-speech-api-server.js lines 102-121): the merge writes
through the alias into the module's `nonStreamingOptions`, and the merged
record is the `initialRequest` field of the outgoing request.  Returns the
updated module together with that request record. -/
def recogniseFileOptionsStep (m : ApiModule) (parameters : Option JsObj) :
    ApiModule × JsObj :=
  let merged := recogniseFileMerge m.nonStreamingOpts parameters
  ({ m with nonStreamingOpts := merged }, merged)

/-- `stopRecording()` (cloud-speech-api-server.js lines 261-269): call
`end()` on the speech client when one is open, then clear the handle. -/
def stopRecording (m : ApiModule) : ApiModule :=
  match m.speechClient with
  | some _ => { m with speechClient := none, endCount := m.endCount + 1 }
  | none => { m with speechClient := none }

/-! ## Speech adapter: streaming write path (`recognise`) -/

/-- An inbound audio buffer, opaque to the relay. -/
abbrev AudioData := List Int

/-- A message written to the streaming speech client: either the one-time
`streamingConfig` message or an `audioContent` chunk. -/
inductive WriteMsg where
  | config (opts : JsObj)
  | audio (data : AudioData)

/-- Per-session write state: the module's `initialRequest` flag and the
log of messages written to the current `speechClient` stream. -/
structure RecogniseSt where
  initialRequest : Bool
  writes : List WriteMsg

/-- `recognise(audioData)` (cloud-speech-api-server.js lines 241-254): on
the first call after `startRecording`, write the `streamingConfig` message
carrying the merged `streamingOptions` (here the parameter `opts`) and
clear the flag; then write the `audioContent` chunk. -/
def recognise (opts : JsObj) (st : RecogniseSt) (audioData : AudioData) :
    RecogniseSt :=
  let st1 :=
    if st.initialRequest then
      { initialRequest := false, writes := st.writes ++ [WriteMsg.config opts] }
    else st
  { st1 with writes := st1.writes ++ [WriteMsg.audio audioData] }

/-- The write state right after `startRecording` opened a session: fresh
stream, `initialRequest` reset to true (cloud-speech-api-server.js lines
180-184). -/
def sessionStart : RecogniseSt :=
  { initialRequest := true, writes := [] }

/-- The write log produced by a sequence of `recognise` calls made after a
session opens. -/
def runRecognises (opts : JsObj) (datas : List AudioData) : RecogniseSt :=
  datas.foldl (recognise opts) sessionStart

/-- Does this write carry the streaming-configuration message? -/
def isConfigMsg : WriteMsg → Bool
  | WriteMsg.config _ => true
  | WriteMsg.audio _ => false

/-! ## Relay server: per-connection state (`src/server/app.js`) -/

/-- Per-connection relay state: the `recording` flag of `app.js` and the
`CloudSpeechApi` module instance created for this connection. -/
structure AppConn where
  recording : Bool
  api : ApiModule

/-- Payload of a status-flavoured socket emission. -/
structure StatusPayload where
  recording : Bool
  error : Option String

/-- The `disconnect` handler (app.js lines 103-109): stop the streaming
client and reset the flag. -/
def onDisconnect (c : AppConn) : AppConn :=
  { recording := false, api := stopRecording c.api }

/-- The `action === 'stop'` branch of the `recording` handler (app.js
lines 68-80): stop the service, clear the flag, then emit an event — the
source writes `socket.emit('recordingStatus', ...)`.  Returns the new
connection state and the list of emitted (event name, payload) pairs. -/
def handleRecordingStop (c : AppConn) : AppConn × List (String × StatusPayload) :=
  ({ recording := false, api := stopRecording c.api },
   [("recordingStatus", { recording := false, error := none })])

/-- The socket event names the client registers handlers for
(cloud-speech-api-client.js lines 192, 215, 222). -/
def clientListenEvents : List String :=
  ["recordingStatusChange", "recordingData", "recordingError"]

/-! ## Relay server: audio forwarding trace (claim C1) -/

/-- Events affecting one connection's flag and write path, in arrival
order: an adapter callback (every callback first runs
`recording = status.recording`, app.js line 47), an explicit stop message,
a disconnect, or an inbound audio buffer on the `data` event. -/
inductive ClientEv where
  | adapterCb (recording : Bool)
  | stopMsg
  | disconnect
  | dataBuf (buf : AudioData)
deriving DecidableEq

/-- Abstract per-connection observation state: the `recording` flag and a
count of `cloudSpeechApi.recognise` (adapter write) invocations. -/
structure ConnSt where
  recording : Bool
  writeCount : Nat

/-- One step of the connection's event handling (app.js lines 42-117).
The `data` handler forwards the buffer to `cloudSpeechApi.recognise` only
when the flag is true, and otherwise does nothing at all. -/
def connStep (s : ConnSt) : ClientEv → ConnSt
  | ClientEv.adapterCb r => { s with recording := r }
  | ClientEv.stopMsg => { s with recording := false }
  | ClientEv.disconnect => { s with recording := false }
  | ClientEv.dataBuf _ =>
    if s.recording then { s with writeCount := s.writeCount + 1 } else s

/-- Connection state at creation (app.js line 39): not recording, no
adapter write has happened. -/
def connInit : ConnSt :=
  { recording := false, writeCount := 0 }

/-- Run a connection through a trace of events. -/
def connRun (t : List ClientEv) : ConnSt :=
  t.foldl connStep connInit

/-- Is this event an inbound audio buffer? -/
def isDataBuf : ClientEv → Bool
  | ClientEv.dataBuf _ => true
  | _ => false

/-! ## Stream data handler and client-bound events (claim C10) -/

/-- One recognition result as the spec's data model describes it:
utterance alternatives with a finality flag; content is opaque here. -/
structure SpeechResult where
  transcript : String
  isFinal : Bool
deriving DecidableEq

/-- An incoming message on the cloud streaming call: an optional embedded
error and an optional (possibly empty) results list. -/
structure CloudResp where
  error : Option String
  results : Option (List SpeechResult)

/-- Discriminator of the adapter's callback responses. -/
inductive CbType where
  | data
  | status
  | error
deriving DecidableEq

/-- The adapter's discriminated callback response shape. -/
structure CbStatus where
  type : CbType
  recording : Bool
  data : Option (List SpeechResult)
  error : Option String
deriving DecidableEq

/-- The `speechClient.on('data')` handler of `startRecording`
(cloud-speech-api-server.js lines 196-213): an embedded error produces an
error response; otherwise a response is produced only when
`response.results && response.results.length` is truthy, i.e. the results
list is present and non-empty; otherwise the callback is not invoked. -/
def onStreamData (resp : CloudResp) : Option CbStatus :=
  match resp.error with
  | some e =>
    some { type := CbType.error, recording := false, data := none, error := some e }
  | none =>
    match resp.results with
    | some rs =>
      if rs.length ≠ 0 then
        some { type := CbType.data, recording := true, data := some rs, error := none }
      else none
    | none => none

/-- A socket emission from the relay to the client. -/
structure EmittedMsg where
  event : String
  recording : Option Bool
  data : Option (List SpeechResult)
  error : Option String
deriving DecidableEq

/-- The `startRecording` callback installed by app.js (lines 45-67): set
the connection flag from `status.recording`, then forward the response as
`recordingData`, `recordingStatusChange`, or `recordingError`. -/
def appStartCallback (status : CbStatus) : Bool × EmittedMsg :=
  (status.recording,
   match status.type with
   | CbType.data =>
     { event := "recordingData", recording := some status.recording
       data := status.data, error := status.error }
   | CbType.status =>
     { event := "recordingStatusChange", recording := some status.recording
       data := none, error := status.error }
   | CbType.error =>
     { event := "recordingError", recording := some status.recording
       data := none, error := status.error })

/-! ## recogniseFile control flow (claim C5) -/

/-- Result of running a JavaScript code path that may throw. -/
inductive JsOutcome (α : Type) where
  | ret (a : α)
  | thrown (msg : String)
deriving DecidableEq

/-- The `{success, data?, error?}` shape `recogniseFile` passes to its
caller's callback. -/
structure CbResp where
  success : Bool
  data : Option (List SpeechResult)
  error : Option String
deriving DecidableEq

/-- One entry of the non-streaming response's `responses` array. -/
structure RespEntry where
  results : List SpeechResult
deriving DecidableEq

/-- Control flow of `recogniseFile` (cloud-speech-api-server.js lines
102-144) as a function of the credential exchange's outcome and, when it
is reached, the outcome of `nonStreamingRecognize`.  On auth failure,
`getSpeechService` (lines 67-89) invokes its continuation with the error
object in the `speechService` position, and the continuation immediately
calls `speechService.nonStreamingRecognize(...)` on it — a thrown
TypeError; the caller's callback is never invoked.  On success the
callback receives `{success:false, error}` for a transport error, and
otherwise `{success:true, data: response.responses[0].results}` — reading
`responses[0]` of an empty array yields `undefined` and the `.results`
access throws.  The returned list is the sequence of caller-callback
invocations. -/
def recogniseFile (auth : Except String Unit)
    (grpc : Except String (List RespEntry)) : JsOutcome (List CbResp) :=
  match auth with
  | Except.error _ =>
    JsOutcome.thrown "TypeError: speechService.nonStreamingRecognize is not a function"
  | Except.ok _ =>
    match grpc with
    | Except.error e =>
      JsOutcome.ret [{ success := false, data := none, error := some e }]
    | Except.ok responses =>
      match responses.head? with
      | none => JsOutcome.thrown "TypeError: cannot read property results of undefined"
      | some r0 =>
        JsOutcome.ret [{ success := true, data := some r0.results, error := none }]

/-! ## Client sample conversion (claim C2)

`convertFloat32ToInt16` (cloud-speech-api-client.js lines 182-189) runs
one backwards `while` loop over the buffer, writing index `l` of a fresh
`Int16Array` of the same length with `Math.min(1, buffer[l]) * 0x7FFF`;
this is an index-wise map.  Samples are IEEE binary32 values; binary32
values carry at most 24 significand bits and `0x7FFF` has 15, so the
binary64 product JavaScript computes is exact and the whole computation
is exact rational arithmetic, modelled over `ℚ`.  Storing into an
`Int16Array` applies ECMAScript `ToInt16`: truncation toward zero, then
reduction modulo 2^16 into the signed 16-bit range. -/

/-- Truncation toward zero of a rational, as ECMAScript `ToIntegerOrInfinity`
computes it inside `ToInt16`. -/
def ratTrunc (q : ℚ) : Int :=
  if 0 ≤ q then ⌊q⌋ else ⌈q⌉

/-- ECMAScript `ToInt16`: truncate toward zero, reduce modulo 2^16, and
reinterpret in the signed 16-bit range. -/
def jsToInt16 (q : ℚ) : Int :=
  let t := ratTrunc q
  let m := t % 65536
  if 32768 ≤ m then m - 65536 else m

/-- Conversion of a single sample: `Math.min(1, x) * 0x7FFF` stored into
an `Int16Array` slot. -/
def convertSample (x : ℚ) : Int :=
  jsToInt16 (min 1 x * 32767)

/-- `convertFloat32ToInt16` on a whole buffer. -/
def convertFloat32ToInt16 (buffer : List ℚ) : List Int :=
  buffer.map convertSample

/-- Modelled from the spec: the spec's stated per-sample formula
`round(min(1,x)*32767)`, to be compared with the source's
`convertSample`. -/
def specConvertSample (x : ℚ) : Int :=
  round (min 1 x * 32767)

/-! ## Client file processing (claim C8) -/

/-- Does `hay` begin with `needle`? (Prefix test used by `indexOf`.) -/
def strStarts : List Char → List Char → Bool
  | [], _ => true
  | _ :: _, [] => false
  | c :: cs, d :: ds => (c == d) && strStarts cs ds

/-- First index at or after `i` where `needle` occurs in `hay`, or `-1`. -/
def idxFrom (needle : List Char) : List Char → Nat → Int
  | [], i => if strStarts needle [] then (i : Int) else -1
  | c :: t, i =>
    if strStarts needle (c :: t) then (i : Int) else idxFrom needle t (i + 1)

/-- JavaScript `hay.indexOf(needle)`. -/
def jsIndexOf (hay needle : String) : Int :=
  idxFrom needle.data hay.data 0

/-- JavaScript `s.substring(a, b)`: clamp both arguments into `[0, len]`,
swap them if needed, and slice. -/
def jsSubstring (s : String) (a b : Int) : String :=
  let len : Int := (s.data.length : Int)
  let a' := min (max a 0) len
  let b' := min (max b 0) len
  let lo := min a' b'
  let hi := max a' b'
  String.mk ((s.data.take hi.toNat).drop lo.toNat)

/-- JavaScript one-argument `s.substring(a)`. -/
def jsSubstringFrom (s : String) (a : Int) : String :=
  jsSubstring s a (s.data.length : Int)

/-- The parameters object built by `processFileField`'s reader callback. -/
structure FileParams where
  language : String
  encoding : String
  sampleRate : Int
deriving DecidableEq

/-- The `reader.onload` body of `processFileField`
(cloud-speech-api-client.js lines 150-170) applied to the data URL
`result`: extract the MIME subtype between `indexOf('audio/') + 6` and
`indexOf(';')`; the parameters start as LINEAR16 defaults and switch to
FLAC when the lowercased subtype equals `flac` (JavaScript `toLowerCase`,
here on ASCII subtypes); the emitted payload is everything after the first
comma.  Returns the parameters and the payload. -/
def processFileResult (result : String) : FileParams × String :=
  let fileType :=
    jsSubstring result (jsIndexOf result "audio/" + 6) (jsIndexOf result ";")
  let params : FileParams :=
    { language := "en-US"
      encoding := if fileType.toLower = "flac" then "FLAC" else "LINEAR16"
      sampleRate := 16000 }
  (params, jsSubstringFrom result (jsIndexOf result "," + 1))

/-! # Theorems -/

/-! ## Object-model lemmas -/

theorem hasProp_cons (k' : String) (v' : JsVal) (t : JsObj) (k : String) :
    hasProp ((k', v') :: t) k = ((k' == k) || hasProp t k) := rfl

theorem hasProp_of_getProp :
    ∀ {o : JsObj} {k : String} {v : JsVal}, getProp o k = some v → hasProp o k = true := by
  intro o
  induction o with
  | nil => intro k v h; simp [getProp] at h
  | cons p t ih =>
    intro k v h
    obtain ⟨k', v'⟩ := p
    by_cases hk : k' = k
    · simp [hasProp_cons, hk]
    · simp only [getProp, if_neg hk] at h
      simp [hasProp_cons, ih h]

theorem updFn_fst (k : String) (v : JsVal) (p : String × JsVal) :
    (updFn k v p).1 = p.1 := by
  unfold updFn
  split
  · next h => simp [h]
  · rfl

theorem updFn_apply_eq {k : String} (v : JsVal) {p : String × JsVal}
    (h : p.1 = k) : updFn k v p = (k, v) := by
  simp [updFn, h]

theorem updFn_apply_ne {k : String} (v : JsVal) {p : String × JsVal}
    (h : ¬p.1 = k) : updFn k v p = p := by
  simp [updFn, h]

theorem propKeys_updMap (o : JsObj) (k : String) (v : JsVal) :
    propKeys (o.map (updFn k v)) = propKeys o := by
  unfold propKeys
  rw [List.map_map]
  exact List.map_congr_left fun p _ => updFn_fst k v p

theorem getProp_updMap_self :
    ∀ {o : JsObj} {k : String}, hasProp o k = true →
      ∀ v, getProp (o.map (updFn k v)) k = some v := by
  intro o
  induction o with
  | nil => intro k h; simp [hasProp] at h
  | cons p t ih =>
    intro k h v
    obtain ⟨k', v'⟩ := p
    rw [List.map_cons]
    by_cases hk : k' = k
    · rw [updFn_apply_eq v hk]
      simp [getProp]
    · rw [updFn_apply_ne v hk]
      have ht : hasProp t k = true := by
        simpa [hasProp_cons, hk] using h
      simp [getProp, hk, ih ht]

theorem getProp_updMap_ne :
    ∀ (o : JsObj) {k kq : String}, kq ≠ k →
      ∀ v, getProp (o.map (updFn k v)) kq = getProp o kq := by
  intro o
  induction o with
  | nil => intro k kq _ v; rfl
  | cons p t ih =>
    intro k kq hne v
    obtain ⟨k', v'⟩ := p
    rw [List.map_cons]
    by_cases hk : k' = k
    · rw [updFn_apply_eq v hk]
      have h1 : ¬k = kq := fun h => hne h.symm
      have h2 : ¬k' = kq := by rw [hk]; exact h1
      simp [getProp, h1, h2, ih hne]
    · rw [updFn_apply_ne v hk]
      by_cases hq : k' = kq
      · simp [getProp, hq]
      · simp [getProp, hq, ih hne]

theorem setProp_of_hasProp {o : JsObj} {k : String} (h : hasProp o k = true)
    (v : JsVal) : setProp o k v = o.map (updFn k v) := by
  simp [setProp, h]

theorem propKeys_setProp {o : JsObj} {k : String} (h : hasProp o k = true)
    (v : JsVal) : propKeys (setProp o k v) = propKeys o := by
  rw [setProp_of_hasProp h, propKeys_updMap]

theorem getProp_setProp_self {o : JsObj} {k : String} (h : hasProp o k = true)
    (v : JsVal) : getProp (setProp o k v) k = some v := by
  rw [setProp_of_hasProp h]
  exact getProp_updMap_self h v

theorem getProp_append_single_ne :
    ∀ (o : JsObj) {k kq : String}, kq ≠ k →
      ∀ v, getProp (o ++ [(k, v)]) kq = getProp o kq := by
  intro o
  induction o with
  | nil =>
    intro k kq hne v
    have h1 : ¬k = kq := fun h => hne h.symm
    simp [getProp, h1]
  | cons p t ih =>
    intro k kq hne v
    obtain ⟨k', v'⟩ := p
    by_cases hq : k' = kq
    · simp [getProp, hq]
    · simp [getProp, hq, ih hne]

theorem getProp_setProp_ne {o : JsObj} {k kq : String} (hne : kq ≠ k)
    (v : JsVal) : getProp (setProp o k v) kq = getProp o kq := by
  unfold setProp
  split
  · exact getProp_updMap_ne o hne v
  · exact getProp_append_single_ne o hne v

/-! ## The merge loops refine `KeysMono` -/

theorem keysMono_refl (a : JsObj) : KeysMono a a :=
  ⟨rfl, fun _ c h => ⟨c, h, rfl⟩⟩

theorem keysMono_trans {a b c : JsObj} (h1 : KeysMono a b) (h2 : KeysMono b c) :
    KeysMono a c := by
  refine ⟨h2.1.trans h1.1, fun k cc h => ?_⟩
  obtain ⟨c₀, hb, hk⟩ := h2.2 k cc h
  obtain ⟨c₁, ha, hk'⟩ := h1.2 k c₀ hb
  exact ⟨c₁, ha, hk.trans hk'⟩

theorem keysMono_setProp_prim {a : JsObj} {k : String} {v : JsVal}
    (hprop : hasProp a k = true) (hv : ∀ f, v ≠ JsVal.obj f) :
    KeysMono a (setProp a k v) := by
  refine ⟨propKeys_setProp hprop v, fun k₁ c h => ?_⟩
  by_cases hk : k₁ = k
  · subst hk
    rw [getProp_setProp_self hprop] at h
    exact absurd (Option.some.inj h) (hv c)
  · rw [getProp_setProp_ne hk] at h
    exact ⟨c, h, rfl⟩

theorem keysMono_setProp_inner {a : JsObj} {k : String} {d : JsObj}
    {ik : String} (iv : JsVal) (hd : getProp a k = some (JsVal.obj d))
    (hik : hasProp d ik = true) :
    KeysMono a (setProp a k (JsVal.obj (setProp d ik iv))) := by
  have hprop : hasProp a k = true := hasProp_of_getProp hd
  refine ⟨propKeys_setProp hprop _, fun k₁ c h => ?_⟩
  by_cases hk : k₁ = k
  · subst hk
    rw [getProp_setProp_self hprop] at h
    have hc : c = setProp d ik iv := by
      have := Option.some.inj h
      exact (JsVal.obj.inj this).symm
    exact ⟨d, hd, by rw [hc]; exact propKeys_setProp hik iv⟩
  · rw [getProp_setProp_ne hk] at h
    exact ⟨c, h, rfl⟩

theorem innerMergeAt_keysMono :
    ∀ (innerO : JsObj) (k : String) (a res : JsObj),
      innerMergeAt k a innerO = Except.ok res → KeysMono a res := by
  intro innerO
  induction innerO with
  | nil =>
    intro k a res h
    simp only [innerMergeAt, Except.ok.injEq] at h
    subst h
    exact keysMono_refl a
  | cons p rest ih =>
    intro k a res h
    obtain ⟨ik, iv⟩ := p
    cases hg : getProp a k with
    | none => simp [innerMergeAt, hg] at h
    | some v =>
      cases v with
      | null => simp [innerMergeAt, hg] at h
      | num n =>
        simp only [innerMergeAt, hg] at h
        exact ih k a res h
      | str s =>
        simp only [innerMergeAt, hg] at h
        exact ih k a res h
      | bool b =>
        simp only [innerMergeAt, hg] at h
        exact ih k a res h
      | obj d =>
        by_cases hik : hasProp d ik = true
        · simp only [innerMergeAt, hg, hik, if_true] at h
          exact keysMono_trans (keysMono_setProp_inner iv hg hik) (ih k _ res h)
        · simp only [innerMergeAt, hg, hik, if_false, Bool.false_eq_true] at h
          exact ih k a res h

theorem mergeStreamingOptions_keysMono :
    ∀ (options : JsObj) (a res : JsObj),
      mergeStreamingOptions a options = Except.ok res → KeysMono a res := by
  intro options
  induction options with
  | nil =>
    intro a res h
    simp only [mergeStreamingOptions, Except.ok.injEq] at h
    subst h
    exact keysMono_refl a
  | cons p rest ih =>
    intro a res h
    obtain ⟨k, v⟩ := p
    by_cases hprop : hasProp a k = true
    · cases v with
      | null => simp [mergeStreamingOptions, hprop] at h
      | obj innerO =>
        simp only [mergeStreamingOptions, hprop, if_true] at h
        cases him : innerMergeAt k a innerO with
        | error e => rw [him] at h; exact absurd h (by simp)
        | ok a2 =>
          rw [him] at h
          exact keysMono_trans (innerMergeAt_keysMono innerO k a a2 him) (ih a2 res h)
      | num n =>
        simp only [mergeStreamingOptions, hprop, if_true] at h
        exact keysMono_trans
          (keysMono_setProp_prim hprop (fun f => by intro hx; cases hx)) (ih _ res h)
      | str s =>
        simp only [mergeStreamingOptions, hprop, if_true] at h
        exact keysMono_trans
          (keysMono_setProp_prim hprop (fun f => by intro hx; cases hx)) (ih _ res h)
      | bool b =>
        simp only [mergeStreamingOptions, hprop, if_true] at h
        exact keysMono_trans
          (keysMono_setProp_prim hprop (fun f => by intro hx; cases hx)) (ih _ res h)
    · simp only [mergeStreamingOptions, Bool.not_eq_true] at h hprop
      rw [hprop] at h
      simp only [Bool.false_eq_true, if_false] at h
      exact ih a res h

/-! ## Claim C3 -/

/-- Claim C3: the streaming-option merge applied on start is allow-list
only, with one level of nested merge.  For every client-supplied options
object that merges without throwing, the result has exactly the
recognized top-level keys of the defaults, and its `config` sub-record
(when still an object) has exactly the recognized inner keys of the
default sub-record, so every unrecognized key is ignored.  In particular,
merging the defaults with override
`config = (sampleRate 16000, unknownKey 'x')` overrides `sampleRate`,
keeps `languageCode = 'en-US'`, and drops `unknownKey`; and the flat
allow-list merge of `recogniseFile` applied to the literal records of the
spec's example drops `unknownKey` as stated. -/
theorem startRecording_merge_allowList :
    (∀ options res, mergeStreamingOptions streamingDefaults options = Except.ok res →
      propKeys res = propKeys streamingDefaults ∧
      ∀ c, getProp res "config" = some (JsVal.obj c) →
        propKeys c = propKeys speechConfigDefaults) ∧
    mergeStreamingOptions streamingDefaults
        [("config", JsVal.obj [("sampleRate", JsVal.num 16000), ("unknownKey", JsVal.str "x")])]
      = Except.ok
          [("config", JsVal.obj
              [("encoding", JsVal.str "LINEAR16"), ("sampleRate", JsVal.num 16000),
               ("languageCode", JsVal.str "en-US"), ("profanityFilter", JsVal.bool true),
               ("speechContext", JsVal.null)]),
           ("interimResults", JsVal.bool true), ("singleUtterance", JsVal.bool false)] ∧
    recogniseFileMerge [("sampleRate", JsVal.num 41000), ("languageCode", JsVal.str "en-US")]
        (some [("sampleRate", JsVal.num 16000), ("unknownKey", JsVal.str "x")])
      = [("sampleRate", JsVal.num 16000), ("languageCode", JsVal.str "en-US")] := by
  refine ⟨?_, by rfl, by rfl⟩
  intro options res h
  have hm := mergeStreamingOptions_keysMono options streamingDefaults res h
  refine ⟨hm.1, fun c hc => ?_⟩
  obtain ⟨c₀, h₀, hkeys⟩ := hm.2 "config" c hc
  have hdef : getProp streamingDefaults "config" = some (JsVal.obj speechConfigDefaults) := rfl
  rw [hdef] at h₀
  have : c₀ = speechConfigDefaults := (JsVal.obj.inj (Option.some.inj h₀)).symm
  rw [hkeys, this]

/-- Witness for claim C3 at the spec's example override. -/
theorem startRecording_merge_allowList_witness :
    propKeys
        [("config", JsVal.obj
            [("encoding", JsVal.str "LINEAR16"), ("sampleRate", JsVal.num 16000),
             ("languageCode", JsVal.str "en-US"), ("profanityFilter", JsVal.bool true),
             ("speechContext", JsVal.null)]),
         ("interimResults", JsVal.bool true), ("singleUtterance", JsVal.bool false)]
      = propKeys streamingDefaults ∧
    ∀ c, getProp
        [("config", JsVal.obj
            [("encoding", JsVal.str "LINEAR16"), ("sampleRate", JsVal.num 16000),
             ("languageCode", JsVal.str "en-US"), ("profanityFilter", JsVal.bool true),
             ("speechContext", JsVal.null)]),
         ("interimResults", JsVal.bool true), ("singleUtterance", JsVal.bool false)]
        "config" = some (JsVal.obj c) →
      propKeys c = propKeys speechConfigDefaults :=
  startRecording_merge_allowList.1
    [("config", JsVal.obj [("sampleRate", JsVal.num 16000), ("unknownKey", JsVal.str "x")])]
    _ (by rfl)

/-! ## Claim C9 -/

/-- Claim C9: the option merges write through into the shared default
records, so overrides persist across calls on the same connection.  A
`recogniseFile` override of `sampleRate` to 44100 is still the
`sampleRate` of the request built by a later `recogniseFile` that passes
no parameters (the stored default was 16000); a `startRecording` override
of `config.sampleRate` to 16000 is still in the module's
`streamingOptions` after a later `startRecording` with no options (the
stored default was 41000). -/
theorem optionMerge_persists :
    getProp (recogniseFileOptionsStep
        (recogniseFileOptionsStep freshModule (some [("sampleRate", JsVal.num 44100)])).1
        none).2 "sampleRate" = some (JsVal.num 44100) ∧
    getProp nonStreamingDefaults "sampleRate" = some (JsVal.num 16000) ∧
    ((startRecording freshModule
          (some [("config", JsVal.obj [("sampleRate", JsVal.num 16000)])])).bind
        (fun m1 => startRecording m1 none)).map
        (fun m2 => getProp m2.streamingOpts "config")
      = Except.ok (some (JsVal.obj
          [("encoding", JsVal.str "LINEAR16"), ("sampleRate", JsVal.num 16000),
           ("languageCode", JsVal.str "en-US"), ("profanityFilter", JsVal.bool true),
           ("speechContext", JsVal.null)])) ∧
    getProp speechConfigDefaults "sampleRate" = some (JsVal.num 41000) :=
  ⟨rfl, rfl, rfl, rfl⟩

/-! ## Claim C4 -/

theorem foldl_recognise_of_not_initial (opts : JsObj) :
    ∀ (datas : List AudioData) (st : RecogniseSt), st.initialRequest = false →
      datas.foldl (recognise opts) st
        = { initialRequest := false, writes := st.writes ++ datas.map WriteMsg.audio } := by
  intro datas
  induction datas with
  | nil =>
    intro st h
    obtain ⟨i, w⟩ := st
    simp at h
    simp [h]
  | cons d ds ih =>
    intro st h
    rw [List.foldl_cons,
      show recognise opts st d
          = { initialRequest := false, writes := st.writes ++ [WriteMsg.audio d] } from by
        simp [recognise, h],
      ih _ rfl]
    simp

theorem filter_isConfigMsg_map_audio (l : List AudioData) :
    (l.map WriteMsg.audio).filter isConfigMsg = [] := by
  induction l with
  | nil => rfl
  | cons d ds ih => simp [isConfigMsg, ih]

/-- Claim C4: after a session opens (`startRecording` resets
`initialRequest` and creates a fresh stream), any non-empty sequence of
`recognise` calls writes the streaming-configuration message (carrying
the merged options) exactly once, strictly before the first audio chunk,
and every later write is an audio chunk. -/
theorem recognise_config_once (opts : JsObj) (datas : List AudioData)
    (h : datas ≠ []) :
    (runRecognises opts datas).writes
      = WriteMsg.config opts :: datas.map WriteMsg.audio ∧
    ((runRecognises opts datas).writes.filter isConfigMsg).length = 1 ∧
    (runRecognises opts datas).writes.head? = some (WriteMsg.config opts) ∧
    ∀ m ∈ (runRecognises opts datas).writes.tail, ∃ d, m = WriteMsg.audio d := by
  obtain ⟨d, ds, rfl⟩ := List.exists_cons_of_ne_nil h
  have h1 : runRecognises opts (d :: ds)
      = { initialRequest := false
          writes := WriteMsg.config opts :: WriteMsg.audio d :: ds.map WriteMsg.audio } := by
    unfold runRecognises
    rw [List.foldl_cons,
      show recognise opts sessionStart d
          = { initialRequest := false
              writes := [WriteMsg.config opts, WriteMsg.audio d] } from rfl,
      foldl_recognise_of_not_initial opts ds _ rfl]
    rfl
  rw [h1]
  refine ⟨rfl, ?_, rfl, ?_⟩
  · simp [List.filter, isConfigMsg, filter_isConfigMsg_map_audio]
  · intro m hm
    simp only [List.tail_cons] at hm
    rcases List.mem_cons.mp hm with h | h
    · exact ⟨d, h⟩
    · obtain ⟨a, _, ha⟩ := List.mem_map.mp h
      exact ⟨a, ha.symm⟩

/-- Witness for claim C4: one audio buffer after session open yields the
configuration write followed by the audio write. -/
theorem recognise_config_once_witness :
    (runRecognises streamingDefaults ([[0]] : List AudioData)).writes
      = WriteMsg.config streamingDefaults
          :: ([[0]] : List AudioData).map WriteMsg.audio :=
  (recognise_config_once streamingDefaults ([[0]] : List AudioData) (by decide)).1

/-! ## Claim C7 -/

/-- Claim C7: a disconnect while the recording flag is true and a
streaming session is open ends the adapter session exactly once
(`endCount` rises by one) and resets the flag, with no stop message
needed; a second closure attempt is a no-op because the handle was
cleared. -/
theorem disconnect_closes_once (c : AppConn) (_hrec : c.recording = true)
    (hcl : c.api.speechClient.isSome = true) :
    (onDisconnect c).api.endCount = c.api.endCount + 1 ∧
    (onDisconnect c).recording = false ∧
    (onDisconnect c).api.speechClient = none ∧
    (stopRecording (onDisconnect c).api).endCount = (onDisconnect c).api.endCount := by
  obtain ⟨u, hu⟩ := Option.isSome_iff_exists.mp hcl
  refine ⟨?_, rfl, ?_, ?_⟩ <;>
    simp [onDisconnect, stopRecording, hu]

/-- Witness for claim C7 on a concrete recording connection. -/
theorem disconnect_closes_once_witness :
    (onDisconnect
        { recording := true
          api := { streamingOpts := streamingDefaults
                   nonStreamingOpts := nonStreamingDefaults
                   initialRequest := false
                   speechClient := some ()
                   endCount := 0 } }).api.endCount = 0 + 1 :=
  (disconnect_closes_once
    { recording := true
      api := { streamingOpts := streamingDefaults
               nonStreamingOpts := nonStreamingDefaults
               initialRequest := false
               speechClient := some ()
               endCount := 0 } } rfl rfl).1

/-! ## Claim C6 -/

/-- Claim C6 evaluation: the stop branch does close the adapter session
and reset the flag, but the event it emits is named `recordingStatus`,
which is not the `recordingStatusChange` event the claim names and is not
among the events the client registers a handler for. -/
theorem stop_notification_event (c : AppConn) :
    (handleRecordingStop c).1.api.speechClient = none ∧
    (handleRecordingStop c).1.recording = false ∧
    (handleRecordingStop c).2.map Prod.fst = ["recordingStatus"] ∧
    "recordingStatus" ∉ clientListenEvents ∧
    ("recordingStatus" : String) ≠ "recordingStatusChange" := by
  refine ⟨?_, rfl, rfl, by decide, by decide⟩
  cases h : c.api.speechClient <;>
    simp [handleRecordingStop, stopRecording, h]

/-! ## Claim C5 -/

/-- Claim C5 evaluation: when the credential exchange fails, the error
object is handed to `recogniseFile`'s continuation in the service
position and the continuation throws a TypeError — the caller's callback
is never invoked, contradicting the claim that authentication failures
are always surfaced to the callback.  Transport errors on the recognize
call itself are surfaced as `success:false` with the error. -/
theorem recogniseFile_auth_failure_throws :
    recogniseFile (Except.error "ENOAUTH") (Except.error "transport")
      = JsOutcome.thrown
          "TypeError: speechService.nonStreamingRecognize is not a function" ∧
    (∀ cbs, recogniseFile (Except.error "ENOAUTH") (Except.error "transport")
      ≠ JsOutcome.ret cbs) ∧
    recogniseFile (Except.ok ()) (Except.error "transport")
      = JsOutcome.ret [{ success := false, data := none, error := some "transport" }] := by
  refine ⟨rfl, ?_, rfl⟩
  intro cbs h
  simp [recogniseFile] at h

/-! ## Claim C10 -/

/-- Claim C10: the stream `data` handler produces a data-type callback
only for cloud messages with a present, non-empty results list; messages
without an error whose results are absent or empty produce no callback at
all, so a `recordingData` emission from the streaming path always carries
a non-empty result list. -/
theorem streamData_nonempty_results :
    (∀ resp cb, onStreamData resp = some cb → cb.type = CbType.data →
      ∃ rs, cb.data = some rs ∧ rs ≠ []) ∧
    (∀ resp, resp.error = none → resp.results = none ∨ resp.results = some [] →
      onStreamData resp = none) ∧
    (∀ resp cb, onStreamData resp = some cb → cb.type = CbType.data →
      (appStartCallback cb).2.event = "recordingData" ∧
      ∃ rs, (appStartCallback cb).2.data = some rs ∧ rs ≠ []) := by
  have h1 : ∀ resp cb, onStreamData resp = some cb → cb.type = CbType.data →
      ∃ rs, cb.data = some rs ∧ rs ≠ [] := by
    intro resp cb h htype
    cases he : resp.error with
    | some e =>
      simp only [onStreamData, he] at h
      rw [← Option.some.inj h] at htype
      simp at htype
    | none =>
      cases hr : resp.results with
      | none => simp [onStreamData, he, hr] at h
      | some rs =>
        simp only [onStreamData, he, hr] at h
        by_cases hlen : rs.length ≠ 0
        · rw [if_pos hlen] at h
          rw [← Option.some.inj h]
          exact ⟨rs, rfl, by simpa using hlen⟩
        · rw [if_neg hlen] at h
          exact absurd h (by simp)
  refine ⟨h1, ?_, ?_⟩
  · intro resp he hr
    rcases hr with hr | hr <;> simp [onStreamData, he, hr]
  · intro resp cb h htype
    obtain ⟨rs, hdata, hne⟩ := h1 resp cb h htype
    constructor
    · simp [appStartCallback, htype]
    · exact ⟨rs, by simp [appStartCallback, htype, hdata], hne⟩

/-- Witness for claim C10 at a concrete one-result cloud message. -/
theorem streamData_nonempty_results_witness :
    ∃ rs, ({ type := CbType.data, recording := true
             data := some [{ transcript := "hello", isFinal := true }]
             error := none } : CbStatus).data = some rs ∧ rs ≠ [] :=
  streamData_nonempty_results.1
    { error := none, results := some [{ transcript := "hello", isFinal := true }] }
    _ rfl rfl

/-! ## Claim C1 -/

theorem connRun_writeCount_aux :
    ∀ (t : List ClientEv) (s : ConnSt),
      (∀ i (h : i < t.length), isDataBuf (t.get ⟨i, h⟩) = true →
        (List.foldl connStep s (t.take i)).recording = false) →
      (t.foldl connStep s).writeCount = s.writeCount := by
  intro t
  induction t with
  | nil => intro s _; rfl
  | cons e t ih =>
    intro s H
    have hs' : (connStep s e).writeCount = s.writeCount := by
      cases e with
      | adapterCb r => rfl
      | stopMsg => rfl
      | disconnect => rfl
      | dataBuf b =>
        have hrec : s.recording = false := H 0 (Nat.succ_pos _) rfl
        simp [connStep, hrec]
    have Ht : ∀ i (h : i < t.length), isDataBuf (t.get ⟨i, h⟩) = true →
        (List.foldl connStep (connStep s e) (t.take i)).recording = false := by
      intro i h hb
      have := H (i + 1) (Nat.succ_lt_succ h) (by simpa using hb)
      simpa [List.take_succ_cons, List.foldl_cons] using this
    calc ((e :: t).foldl connStep s).writeCount
        = (t.foldl connStep (connStep s e)).writeCount := rfl
      _ = (connStep s e).writeCount := ih _ Ht
      _ = s.writeCount := hs'

/-- Claim C1: over any per-connection event trace in which every inbound
audio buffer arrives while the recording flag is false (before the start
acknowledgment sets it true, or after stop/disconnect resets it), the
adapter write count stays zero; and any single buffer arriving while the
flag is false is silently dropped (the handler leaves the state
unchanged). -/
theorem audio_dropped_while_not_recording :
    (∀ t : List ClientEv,
      (∀ i (h : i < t.length), isDataBuf (t.get ⟨i, h⟩) = true →
        (connRun (t.take i)).recording = false) →
      (connRun t).writeCount = 0) ∧
    (∀ s : ConnSt, s.recording = false → ∀ b, connStep s (ClientEv.dataBuf b) = s) := by
  constructor
  · intro t H
    exact connRun_writeCount_aux t connInit H
  · intro s h b
    simp [connStep, h]

/-- Witness for claim C1: a buffer before the start acknowledgment and a
buffer after stop are both dropped, leaving the write count at zero. -/
theorem audio_dropped_witness :
    (connRun [ClientEv.dataBuf [1], ClientEv.adapterCb true, ClientEv.stopMsg,
        ClientEv.dataBuf [2]]).writeCount = 0 :=
  audio_dropped_while_not_recording.1 _ (by decide)

/-! ## Claim C2 -/

theorem ratTrunc_bounds {q : ℚ} (hlo : -32767 ≤ q) (hhi : q ≤ 32767) :
    -32767 ≤ ratTrunc q ∧ ratTrunc q ≤ 32767 := by
  unfold ratTrunc
  split_ifs with h
  · constructor
    · have h0 : (0 : Int) ≤ ⌊q⌋ := Int.floor_nonneg.mpr h
      omega
    · have hq : (⌊q⌋ : ℚ) ≤ 32767 := le_trans (Int.floor_le q) hhi
      exact_mod_cast hq
  · constructor
    · have hq : (-32767 : ℚ) ≤ (⌈q⌉ : ℚ) := le_trans hlo (Int.le_ceil q)
      exact_mod_cast hq
    · have h0 : ⌈q⌉ ≤ 0 := Int.ceil_le.mpr (by push_cast; linarith [not_le.mp h])
      omega

theorem jsToInt16_eq_of_bounds {q : ℚ} (h1 : -32767 ≤ ratTrunc q)
    (h2 : ratTrunc q ≤ 32767) : jsToInt16 q = ratTrunc q := by
  show (if 32768 ≤ ratTrunc q % 65536 then ratTrunc q % 65536 - 65536
        else ratTrunc q % 65536) = ratTrunc q
  split_ifs with h <;> omega

/-- Counterexample to claim C2: at the representable binary32 sample
`x = 1/2` (inside `[-1,1]`), the code produces 16383 — the `Int16Array`
store truncates toward zero — while the claim's formula
`round(min(1,x)*32767)` gives 16384. -/
theorem convertSample_round_counterexample :
    convertSample (1/2) = 16383 ∧ specConvertSample (1/2) = 16384 ∧
    (-1 : ℚ) ≤ 1/2 ∧ (1/2 : ℚ) ≤ 1 ∧ (16383 : Int) ≠ 16384 := by
  have hmin : min (1 : ℚ) (1/2) = 1/2 := min_eq_right (by norm_num)
  have hq : min (1 : ℚ) (1/2) * 32767 = 32767/2 := by rw [hmin]; ring
  have hfl : ⌊(32767/2 : ℚ)⌋ = 16383 := by
    rw [Int.floor_eq_iff]
    norm_num
  refine ⟨?_, ?_, by norm_num, by norm_num, by norm_num⟩
  · show jsToInt16 (min 1 (1/2 : ℚ) * 32767) = 16383
    rw [hq]
    show (if 32768 ≤ ratTrunc (32767/2 : ℚ) % 65536
          then ratTrunc (32767/2 : ℚ) % 65536 - 65536
          else ratTrunc (32767/2 : ℚ) % 65536) = 16383
    have ht : ratTrunc (32767/2 : ℚ) = 16383 := by
      unfold ratTrunc
      rw [if_pos (by norm_num : (0:ℚ) ≤ 32767/2), hfl]
    rw [ht]
    norm_num
  · show round (min 1 (1/2 : ℚ) * 32767) = 16384
    rw [hq, round_eq, show ((32767:ℚ)/2 + 1/2) = ((16384 : Int) : ℚ) by norm_num,
      Int.floor_intCast]

/-- Claim C2 amended: for samples `x` in `[-1,1]` the conversion produces
the 16-bit value `trunc(min(1,x)*32767)` — truncation toward zero, not
rounding; for `x > 1` the clamp caps the result at 32767; and the
conversion maps the buffer index-wise, yielding an integer buffer of the
same length as the input. -/
theorem convertSample_trunc_spec :
    (∀ x : ℚ,
      (-1 ≤ x → x ≤ 1 → convertSample x = ratTrunc (min 1 x * 32767)) ∧
      (1 < x → convertSample x = 32767)) ∧
    ∀ buffer : List ℚ, (convertFloat32ToInt16 buffer).length = buffer.length := by
  constructor
  · intro x
    constructor
    · intro hlo hhi
      have hmin : min (1 : ℚ) x = x := min_eq_right hhi
      have hql : -32767 ≤ min (1 : ℚ) x * 32767 := by rw [hmin]; nlinarith
      have hqh : min (1 : ℚ) x * 32767 ≤ 32767 := by rw [hmin]; nlinarith
      obtain ⟨hb1, hb2⟩ := ratTrunc_bounds hql hqh
      exact jsToInt16_eq_of_bounds hb1 hb2
    · intro hx
      have hmin : min (1 : ℚ) x = 1 := min_eq_left (le_of_lt hx)
      show jsToInt16 (min 1 x * 32767) = 32767
      rw [hmin, one_mul]
      have ht : ratTrunc (32767 : ℚ) = 32767 := by
        unfold ratTrunc
        rw [if_pos (by norm_num : (0:ℚ) ≤ 32767),
          show ((32767:ℚ)) = ((32767 : Int) : ℚ) by norm_num, Int.floor_intCast]
      show (if 32768 ≤ ratTrunc (32767 : ℚ) % 65536
            then ratTrunc (32767 : ℚ) % 65536 - 65536
            else ratTrunc (32767 : ℚ) % 65536) = 32767
      rw [ht]
      norm_num
  · intro buffer
    simp [convertFloat32ToInt16]

/-- Witness for the amended claim C2 at `x = 1/2` and `x = 2`. -/
theorem convertSample_trunc_spec_witness :
    convertSample (1/2) = ratTrunc (min 1 (1/2 : ℚ) * 32767) ∧
    convertSample 2 = 32767 :=
  ⟨(convertSample_trunc_spec.1 (1/2)).1 (by norm_num) (by norm_num),
   (convertSample_trunc_spec.1 2).2 (by norm_num)⟩

/-! ## Claim C8 -/

theorem idxFrom_not_start (needle : List Char) (c : Char) (t : List Char)
    (i : Nat) (h : strStarts needle (c :: t) = false) :
    idxFrom needle (c :: t) i = idxFrom needle t (i + 1) := by
  simp [idxFrom, h]

theorem idxFrom_start {needle hay : List Char}
    (h : strStarts needle hay = true) (i : Nat) :
    idxFrom needle hay i = (i : Int) := by
  cases hay <;> simp [idxFrom, h]

theorem idxFrom_char_append {c : Char} :
    ∀ (l r : List Char) (i : Nat), c ∉ l →
      idxFrom [c] (l ++ c :: r) i = ((i + l.length : Nat) : Int) := by
  intro l
  induction l with
  | nil =>
    intro r i _
    rw [List.nil_append, idxFrom_start (by simp [strStarts]) i]
    simp
  | cons d l ih =>
    intro r i h
    have hne : ¬c = d := fun hh => h (by rw [hh]; exact List.mem_cons_self d l)
    have hstep : strStarts [c] (d :: (l ++ c :: r)) = false := by
      simp [strStarts, hne]
    rw [List.cons_append, idxFrom_not_start _ _ _ _ hstep,
      ih r (i + 1) (fun hm => h (List.mem_cons_of_mem d hm))]
    simp only [List.length_cons]
    congr 1
    omega

theorem idxFrom_audio (rest : List Char) :
    idxFrom ['a', 'u', 'd', 'i', 'o', '/']
      ('d' :: 'a' :: 't' :: 'a' :: ':' :: 'a' :: 'u' :: 'd' :: 'i' :: 'o' :: '/' :: rest)
      0 = 5 := by
  have h0 : strStarts ['a', 'u', 'd', 'i', 'o', '/']
      ('d' :: 'a' :: 't' :: 'a' :: ':' :: 'a' :: 'u' :: 'd' :: 'i' :: 'o' :: '/' :: rest)
      = false := rfl
  have h1 : strStarts ['a', 'u', 'd', 'i', 'o', '/']
      ('a' :: 't' :: 'a' :: ':' :: 'a' :: 'u' :: 'd' :: 'i' :: 'o' :: '/' :: rest)
      = false := rfl
  have h2 : strStarts ['a', 'u', 'd', 'i', 'o', '/']
      ('t' :: 'a' :: ':' :: 'a' :: 'u' :: 'd' :: 'i' :: 'o' :: '/' :: rest) = false := rfl
  have h3 : strStarts ['a', 'u', 'd', 'i', 'o', '/']
      ('a' :: ':' :: 'a' :: 'u' :: 'd' :: 'i' :: 'o' :: '/' :: rest) = false := rfl
  have h4 : strStarts ['a', 'u', 'd', 'i', 'o', '/']
      (':' :: 'a' :: 'u' :: 'd' :: 'i' :: 'o' :: '/' :: rest) = false := rfl
  have h5 : strStarts ['a', 'u', 'd', 'i', 'o', '/']
      ('a' :: 'u' :: 'd' :: 'i' :: 'o' :: '/' :: rest) = true := rfl
  rw [idxFrom_not_start _ _ _ _ h0, idxFrom_not_start _ _ _ _ h1,
    idxFrom_not_start _ _ _ _ h2, idxFrom_not_start _ _ _ _ h3,
    idxFrom_not_start _ _ _ _ h4, idxFrom_start h5]
  rfl

theorem jsSubstring_extract (pre mid post : List Char) :
    jsSubstring (String.mk (pre ++ mid ++ post)) ((pre.length : Nat) : Int)
      (((pre.length : Nat) : Int) + ((mid.length : Nat) : Int)) = String.mk mid := by
  have h0a : (0 : Int) ≤ (pre.length : Int) := Nat.cast_nonneg _
  have h0b : (0 : Int) ≤ (pre.length : Int) + (mid.length : Int) := by positivity
  have hab : (pre.length : Int) ≤ (pre.length : Int) + (mid.length : Int) :=
    le_add_of_nonneg_right (Nat.cast_nonneg _)
  have haN : (pre.length : Int) ≤ (((pre ++ mid ++ post).length : Nat) : Int) := by
    simp only [List.length_append]
    push_cast
    omega
  have hbN : (pre.length : Int) + (mid.length : Int)
      ≤ (((pre ++ mid ++ post).length : Nat) : Int) := by
    simp only [List.length_append]
    push_cast
    omega
  simp only [jsSubstring]
  rw [max_eq_left h0a, max_eq_left h0b, min_eq_left haN, min_eq_left hbN,
    min_eq_left hab, max_eq_right hab,
    show (pre.length : Int) + (mid.length : Int)
        = (((pre.length + mid.length : Nat)) : Int) by push_cast; ring,
    Int.toNat_natCast, Int.toNat_natCast,
    ← List.length_append pre mid, List.take_left, List.drop_left]

/-- Claim C8: for a data URL `data:audio/SUB;base64,PAYLOAD` whose subtype
contains no semicolon, `processFileField` sets the encoding parameter to
FLAC exactly when the lowercased subtype is `flac`, and leaves the default
LINEAR16 for every other subtype. -/
theorem processFileField_encoding (sub payload : String)
    (hsemi : ';' ∉ sub.data) :
    (processFileResult ("data:audio/" ++ sub ++ ";base64," ++ payload)).1.encoding
      = if sub.toLower = "flac" then "FLAC" else "LINEAR16" := by
  have hdata : ("data:audio/" ++ sub ++ ";base64," ++ payload).data
      = ['d', 'a', 't', 'a', ':', 'a', 'u', 'd', 'i', 'o', '/'] ++ sub.data
          ++ ([';', 'b', 'a', 's', 'e', '6', '4', ','] ++ payload.data) := by
    simp only [String.data_append, List.append_assoc]
  have hres : ("data:audio/" ++ sub ++ ";base64," ++ payload)
      = String.mk (['d', 'a', 't', 'a', ':', 'a', 'u', 'd', 'i', 'o', '/'] ++ sub.data
          ++ ([';', 'b', 'a', 's', 'e', '6', '4', ','] ++ payload.data)) := by
    rw [← hdata]
  have hidx1 : jsIndexOf ("data:audio/" ++ sub ++ ";base64," ++ payload) "audio/" = 5 := by
    unfold jsIndexOf
    rw [show "audio/".data = ['a', 'u', 'd', 'i', 'o', '/'] from rfl, hdata]
    exact idxFrom_audio _
  have hnotin : ';' ∉ ['d', 'a', 't', 'a', ':', 'a', 'u', 'd', 'i', 'o', '/'] ++ sub.data := by
    rw [List.mem_append]
    push_neg
    exact ⟨by decide, hsemi⟩
  have hsem : jsIndexOf ("data:audio/" ++ sub ++ ";base64," ++ payload) ";"
      = ((11 + sub.data.length : Nat) : Int) := by
    unfold jsIndexOf
    rw [show ";".data = [';'] from rfl, hdata,
      show ['d', 'a', 't', 'a', ':', 'a', 'u', 'd', 'i', 'o', '/'] ++ sub.data
            ++ ([';', 'b', 'a', 's', 'e', '6', '4', ','] ++ payload.data)
          = (['d', 'a', 't', 'a', ':', 'a', 'u', 'd', 'i', 'o', '/'] ++ sub.data)
            ++ (';' :: (['b', 'a', 's', 'e', '6', '4', ','] ++ payload.data)) from by
        simp,
      idxFrom_char_append _ _ _ hnotin]
    congr 1
    simp
    omega
  have hft : jsSubstring ("data:audio/" ++ sub ++ ";base64," ++ payload)
      (jsIndexOf ("data:audio/" ++ sub ++ ";base64," ++ payload) "audio/" + 6)
      (jsIndexOf ("data:audio/" ++ sub ++ ";base64," ++ payload) ";") = sub := by
    rw [hidx1, hsem, hres]
    have hextract := jsSubstring_extract
      ['d', 'a', 't', 'a', ':', 'a', 'u', 'd', 'i', 'o', '/'] sub.data
      ([';', 'b', 'a', 's', 'e', '6', '4', ','] ++ payload.data)
    rw [show ((['d', 'a', 't', 'a', ':', 'a', 'u', 'd', 'i', 'o', '/'].length : Nat) : Int)
          = (11 : Int) from rfl] at hextract
    rw [show ((11 + sub.data.length : Nat) : Int) = 11 + (sub.data.length : Int) by
      push_cast; ring]
    rw [show ((5 : Int) + 6) = 11 from rfl]
    exact hextract
  simp only [processFileResult]
  rw [hft]

/-- Witness for claim C8 at a concrete FLAC data URL. -/
theorem processFileField_encoding_witness :
    (processFileResult ("data:audio/" ++ "flac" ++ ";base64," ++ "AAAA")).1.encoding
      = if "flac".toLower = "flac" then "FLAC" else "LINEAR16" :=
  processFileField_encoding "flac" "AAAA" (by decide)

end SpeechSample
